import Mathlib

/-!
# Verification of the AI email sender bot core

Shallow embedding of the deterministic core of the repository:

* `telegram_bot.py` — protocol parser (`parse_ai_response`), time-expression
  parser (`parse_send_time`), conversation memory (`add_to_memory`,
  `get_conversation_context`, the deterministic prefix of
  `analyze_message_with_ai`), attachment correlation (`handle_document`) and
  scheduling dispatch (`schedule_email_from_ai`).
* `email_scheduler.py` — one-shot scheduling (`schedule_email_datetime`,
  `send_scheduled_email_once`) and the polling loop (`run_scheduler`),
  together with the fragment of the third-party `schedule` library that those
  functions rely on (`Scheduler.clear`, `Scheduler.run_pending`, tagging).

Modelling conventions:
* Python `str` is modelled as `List Char`; the helpers `pyStrip`, `pyLower`,
  `pySplitWs`, `pySplitOnCh`, `pyIn`, `pyReplace` and `pyInt` model the
  corresponding `str` methods / builtins on the ASCII fragment that the
  program manipulates (Unicode whitespace beyond the ASCII escapes, Unicode
  digits and underscore digit grouping accepted by Python's `int` are outside
  the model; no input used below exercises them).
* `datetime` values are modelled as integer seconds since 0001-01-01 00:00,
  mirroring CPython's proleptic-Gregorian `toordinal` arithmetic;
  `timedelta` arithmetic is exact integer arithmetic (the magnitude limits of
  `datetime`/`timedelta`, which raise `OverflowError` for astronomically
  large operands, are outside the model, while the `MINYEAR`/`MAXYEAR`
  validation of the `datetime` constructor is modelled since it produces the
  `ValueError` that `parse_send_time` catches).
* Fallible Python code is modelled with `Option`; a caught exception is the
  `none` branch.
-/

namespace EmailBot

/-! ## Python string primitives (on `List Char`) -/

/-- ASCII whitespace as recognised by `str.strip()` / `str.split()`
(space, tab, newline, carriage return, vertical tab, form feed). -/
def isSpaceCh (c : Char) : Bool :=
  decide (c.toNat = 32 ∨ c.toNat = 9 ∨ c.toNat = 10 ∨ c.toNat = 13 ∨
    c.toNat = 11 ∨ c.toNat = 12)

/-- ASCII decimal digit. -/
def isDigitCh (c : Char) : Bool :=
  decide (48 ≤ c.toNat ∧ c.toNat ≤ 57)

/-- `str.lower()` on a single character (ASCII fragment). -/
def lowerCh (c : Char) : Char :=
  if 65 ≤ c.toNat ∧ c.toNat ≤ 90 then Char.ofNat (c.toNat + 32) else c

/-- `s.strip()`: drop leading and trailing whitespace. -/
def pyStrip (l : List Char) : List Char :=
  ((l.dropWhile isSpaceCh).reverse.dropWhile isSpaceCh).reverse

/-- `s.lower()`. -/
def pyLower (l : List Char) : List Char :=
  l.map lowerCh

/-- Worker for `pySplitWs`; `acc` holds the current word reversed. -/
def splitWsAux : List Char → List Char → List (List Char)
  | [], acc => if acc = [] then [] else [acc.reverse]
  | c :: cs, acc =>
    if isSpaceCh c then
      if acc = [] then splitWsAux cs [] else acc.reverse :: splitWsAux cs []
    else splitWsAux cs (c :: acc)

/-- `s.split()` with no argument: split on whitespace runs, dropping empties. -/
def pySplitWs (l : List Char) : List (List Char) :=
  splitWsAux l []

/-- `s.split(sep)` for a one-character separator: keeps empty fields,
`"".split(sep) = [""]`. -/
def pySplitOnCh (sep : Char) : List Char → List (List Char)
  | [] => [[]]
  | c :: cs =>
    if c = sep then [] :: pySplitOnCh sep cs
    else
      match pySplitOnCh sep cs with
      | t :: ts => (c :: t) :: ts
      | [] => [[c]]

/-- Python's `needle in hay` substring test. -/
def pyIn (n : List Char) : List Char → Bool
  | [] => decide (n = [])
  | c :: cs => n.isPrefixOf (c :: cs) || pyIn n cs

/-- Worker for `pyReplace`; the fuel is an upper bound on the length of the
remaining string, so the fuel-exhausted branch is unreachable when the fuel
starts at `s.length`. -/
def pyReplaceCore (n r : List Char) : Nat → List Char → List Char
  | _, [] => []
  | 0, s => s
  | fuel + 1, c :: cs =>
    if n ≠ [] ∧ n.isPrefixOf (c :: cs) then
      r ++ pyReplaceCore n r fuel ((c :: cs).drop n.length)
    else
      c :: pyReplaceCore n r fuel cs

/-- `s.replace(n, r)`: replace every occurrence, left to right. -/
def pyReplace (n r s : List Char) : List Char :=
  pyReplaceCore n r s.length s

/-- Accumulating decimal reader: value of a digit string, `none` on the first
non-digit. -/
def readDigitsAux : List Char → Nat → Option Nat
  | [], acc => some acc
  | c :: cs, acc =>
    if isDigitCh c then readDigitsAux cs (acc * 10 + (c.toNat - 48)) else none

/-- Nonempty digit run. -/
def readDigits (l : List Char) : Option Nat :=
  if l = [] then none else readDigitsAux l 0

/-- Python's `int(s)` on the fragment the program uses: optional surrounding
whitespace, optional sign, decimal digits; `none` models `ValueError`. -/
def pyInt (s : List Char) : Option Int :=
  match pyStrip s with
  | [] => none
  | c :: cs =>
    if c = '+' then (readDigits cs).map (fun n => (n : Int))
    else if c = '-' then (readDigits cs).map (fun n => -(n : Int))
    else (readDigits (c :: cs)).map (fun n => (n : Int))

/-- Decimal rendering worker (most significant digit first); fuel-driven so
that it reduces definitionally. -/
def natToDigitsCore : Nat → Nat → List Char → List Char
  | 0, _, acc => acc
  | fuel + 1, n, acc =>
    if n < 10 then Char.ofNat (48 + n % 10) :: acc
    else natToDigitsCore fuel (n / 10) (Char.ofNat (48 + n % 10) :: acc)

/-- Decimal rendering of a natural number, as in `str(n)`. -/
def natToDigits (n : Nat) : List Char :=
  natToDigitsCore (n + 1) n []

/-! ## Calendar arithmetic (CPython `datetime`, proleptic Gregorian) -/

/-- Gregorian leap year. -/
def isLeap (y : Nat) : Bool :=
  (y % 4 = 0 && y % 100 ≠ 0) || y % 400 = 0

/-- Days in a month (month `1`..`12`). -/
def daysInMonth (y m : Nat) : Nat :=
  if m = 2 then (if isLeap y then 29 else 28)
  else if m = 4 ∨ m = 6 ∨ m = 9 ∨ m = 11 then 30
  else 31

/-- Days in the months of year `y` strictly before month `m`. -/
def daysBeforeMonth (y m : Nat) : Nat :=
  (List.range (m - 1)).foldl (fun acc i => acc + daysInMonth y (i + 1)) 0

/-- `datetime.toordinal`-style day count: days since 0001-01-01
(that date itself being day `0` here). -/
def toOrdinal (y m d : Nat) : Nat :=
  (y - 1) * 365 + (y - 1) / 4 - (y - 1) / 100 + (y - 1) / 400 +
    daysBeforeMonth y m + (d - 1)

/-- A `datetime(y, m, d, h, mi)` as seconds since 0001-01-01 00:00. -/
def dtSeconds (y m d h mi : Nat) : Int :=
  ((toOrdinal y m d * 86400 + h * 3600 + mi * 60 : Nat) : Int)

/-- The range validation performed by the `datetime(year, month, day, hour,
minute)` constructor; out of range raises `ValueError`. -/
def validDate (y m d h mi : Int) : Bool :=
  decide (1 ≤ y ∧ y ≤ 9999 ∧ 1 ≤ m ∧ m ≤ 12 ∧ 1 ≤ d ∧
    d ≤ (daysInMonth y.toNat m.toNat : Int) ∧
    0 ≤ h ∧ h ≤ 23 ∧ 0 ≤ mi ∧ mi ≤ 59)

/-! ## `parse_send_time` (telegram_bot.py lines 373-412) -/

/-- Normalisation `time_str.strip().lower()` at the top of `parse_send_time`. -/
def normTime (s : List Char) : List Char :=
  pyLower (pyStrip s)

/-- The `"za X minut/godzin/dni"` branch of `parse_send_time`, applied to the
normalised string; falls back to `now + 1 hour` exactly where the Python
control flow reaches the final `return` (unknown unit, too few words, or a
`ValueError` from `int`). -/
def relBranch (t : List Char) (now : Int) : Int :=
  if 3 ≤ (pySplitWs t).length then
    match pyInt ((pySplitWs t).getD 1 []) with
    | some amount =>
      if pyIn ("minut".toList) ((pySplitWs t).getD 2 []) then now + amount * 60
      else if pyIn ("godzin".toList) ((pySplitWs t).getD 2 []) then now + amount * 3600
      else if pyIn ("dni".toList) ((pySplitWs t).getD 2 []) then now + amount * 86400
      else now + 3600
    | none => now + 3600
  else now + 3600

/-- The `"DD.MM.RRRR HH:MM"` branch: `date_part, time_part = time_str.split()`
(exactly two words, else `ValueError`), three `int`s from splitting on `"."`,
two from splitting on `":"`, then the `datetime(...)` constructor; any failure
is `none` (a caught `ValueError`). -/
def absParse (t : List Char) : Option Int :=
  match pySplitWs t with
  | [datePart, timePart] =>
    match pySplitOnCh '.' datePart with
    | [ds, ms, ys] =>
      match pyInt ds, pyInt ms, pyInt ys with
      | some d, some m, some y =>
        match pySplitOnCh ':' timePart with
        | [hs, mis] =>
          match pyInt hs, pyInt mis with
          | some h, some mi =>
            if validDate y m d h mi then
              some (dtSeconds y.toNat m.toNat d.toNat h.toNat mi.toNat)
            else none
          | _, _ => none
        | _ => none
      | _, _, _ => none
    | _ => none
  | _ => none

/-- The field extraction of the `"HH:MM"` branch: two `int`s from splitting on
`":"`, validated by `now.replace(hour=..., minute=...)` (out of range raises
`ValueError`). -/
def clockFields (t : List Char) : Option (Int × Int) :=
  match pySplitOnCh ':' t with
  | [hs, mis] =>
    match pyInt hs, pyInt mis with
    | some h, some mi =>
      if decide (0 ≤ h ∧ h ≤ 23 ∧ 0 ≤ mi ∧ mi ≤ 59) then some (h, mi) else none
    | _, _ => none
  | _ => none

/-- `now.replace(hour=h, minute=mi, second=0, microsecond=0)` followed by the
roll-forward `if target_time <= now: target_time += timedelta(days=1)`. -/
def clockResult (now h mi : Int) : Int :=
  let target := (Int.fdiv now 86400) * 86400 + h * 3600 + mi * 60
  if target ≤ now then target + 86400 else target

/-- `parse_send_time(time_str)` from telegram_bot.py: a total function — every
unrecognised input and every caught parse error returns `now + 1 hour`. -/
def parse_send_time (raw : List Char) (now : Int) : Int :=
  if ("za ".toList).isPrefixOf (normTime raw) then relBranch (normTime raw) now
  else if pyIn (".".toList) (normTime raw) ∧ pyIn (":".toList) (normTime raw) then
    match absParse (normTime raw) with
    | some v => v
    | none => now + 3600
  else if (normTime raw).length = 5 ∧ pyIn (":".toList) (normTime raw) then
    match clockFields (normTime raw) with
    | some (h, mi) => clockResult now h mi
    | none => now + 3600
  else now + 3600

/-! ## `parse_ai_response` (telegram_bot.py lines 339-371) -/

/-- The tagged action produced by the protocol parser. -/
inductive AIAction where
  | scheduleEmail (subject body sendTime : List Char)
  | requestAttachment (info : List Char)
  | textResponse (message : List Char)
deriving DecidableEq, Repr

/-- The ready marker `"GOTOWE:"`. -/
def gotoweTok : List Char := "GOTOWE:".toList

/-- The attachment-request marker `"ZAŁĄCZNIK:"`. -/
def attachTok : List Char := "ZAŁĄCZNIK:".toList

/-- The `parts` list of the ready-marker branch of `parse_ai_response`:
`response.strip().replace("GOTOWE:", "").strip().split("|")`. -/
def gotoweParts (response : List Char) : List (List Char) :=
  pySplitOnCh '|' (pyStrip (pyReplace gotoweTok [] (pyStrip response)))

/-- `parse_ai_response` from telegram_bot.py.  Note the faithful oddities of
the source: the split threshold is `len(parts) >= 3` (not equal), and when
the ready marker is present with fewer than three fields *no* branch returns,
so Python yields `None` — modelled as `none` (the caller's tuple unpacking
then raises `TypeError`). -/
def parse_ai_response (response : List Char) : Option AIAction :=
  if gotoweTok.isPrefixOf (pyStrip response) then
    if 3 ≤ (gotoweParts response).length then
      some (.scheduleEmail (pyStrip ((gotoweParts response).getD 0 []))
        (pyStrip ((gotoweParts response).getD 1 []))
        (pyStrip ((gotoweParts response).getD 2 [])))
    else none
  else if attachTok.isPrefixOf (pyStrip response) then
    some (.requestAttachment (pyStrip (pyReplace attachTok [] (pyStrip response))))
  else some (.textResponse (pyStrip response))

/-! ## The scheduler (email_scheduler.py together with the `schedule` library)

`schedule_email_datetime` registers `send_scheduled_email_once` through
`schedule.every(delay_seconds).seconds.do(...).tag(...)`; `run_scheduler`
loops `schedule.run_pending()` every 60 s and stops when a job raises
`SystemExit`.  The fragment of the `schedule` library that matters is
modelled: a job is due when `next_run <= now`, due jobs run sorted by
`next_run`, `Scheduler.clear(tag)` removes exactly the jobs whose tag set
contains `tag` (exact string equality, not substring), and a job whose
function raised propagates the exception, aborting the rest of the tick. -/

/-- A registered `schedule` job.  `once = true` means its function is
`send_scheduled_email_once` (clear by tag, then raise `SystemExit`),
`once = false` means `send_scheduled_email` (plain daily send).  The payload
fields mirror the arguments bound by `.do(...)`. -/
structure SchedJob where
  id : Nat
  tags : List (List Char)
  nextRun : Int
  interval : Int
  once : Bool
  toEmail : List Char
  subject : List Char
  body : List Char
  attachments : List (List Char)
deriving DecidableEq, Repr

/-- `schedule.clear(tag)`: keep the jobs whose tag set does not contain the
tag — membership is exact string equality. -/
def schedule_clear (tag : List Char) (jobs : List SchedJob) : List SchedJob :=
  jobs.filter (fun j => decide (tag ∉ j.tags))

/-- The tag `f"once_{to_email}"` that `send_scheduled_email_once` passes to
`schedule.clear`. -/
def onceClearTag (toEmail : List Char) : List Char :=
  "once_".toList ++ toEmail

/-- The tag `f"once_{to_email}_{send_datetime.timestamp()}"` attached by
`schedule_email_datetime`.  The float timestamp is rendered as the integral
second count followed by `".0"`; only its exact-string (in)equality with
`onceClearTag` matters below. -/
def onceFullTag (toEmail : List Char) (sendDt : Int) : List Char :=
  "once_".toList ++ toEmail ++ "_".toList ++ natToDigits sendDt.toNat ++ ".0".toList

/-- `EmailScheduler.schedule_email_datetime` (email_scheduler.py lines
304-332): reject (by returning with only a log line) a send time that is not
in the future, otherwise register a one-shot job due `delay_seconds` from
now. -/
def schedule_email_datetime (now : Int) (toEmail subject body : List Char)
    (sendDt : Int) (attachments : List (List Char)) (jobs : List SchedJob) :
    List SchedJob :=
  if sendDt ≤ now then jobs
  else
    jobs ++ [{ id := jobs.length, tags := [onceFullTag toEmail sendDt],
               nextRun := now + (sendDt - now), interval := sendDt - now,
               once := true, toEmail := toEmail, subject := subject,
               body := body, attachments := attachments }]

/-- Run one job's bound function against the store.  `sendOk` is the boolean
result of the external SMTP send (`send_email`); in the source it only
selects which log line is produced.  `send_scheduled_email_once` then calls
`schedule.clear(f"once_{to_email}")` and raises `SystemExit` regardless of
`sendOk`; `send_scheduled_email` does neither.  The returned flag is `true`
when the function raised `SystemExit`. -/
def runJob (_sendOk : Bool) (j : SchedJob) (jobs : List SchedJob) :
    List SchedJob × Bool :=
  if j.once then (schedule_clear (onceClearTag j.toEmail) jobs, true)
  else (jobs, false)

/-- Stable insertion into a list sorted by `nextRun` (models the stable
`sorted(runnable_jobs)` of `Scheduler.run_pending`). -/
def insertByNextRun (j : SchedJob) : List SchedJob → List SchedJob
  | [] => [j]
  | k :: ks =>
    if j.nextRun < k.nextRun then j :: k :: ks else k :: insertByNextRun j ks

/-- Stable sort by `nextRun`. -/
def sortByNextRun : List SchedJob → List SchedJob
  | [] => []
  | j :: js => insertByNextRun j (sortByNextRun js)

/-- After a job function returns normally, `Job._schedule_next_run` sets
`next_run` to (roughly) `now + period`; jobs removed from the store in the
meantime are unaffected. -/
def reschedule (i : Nat) (now : Int) (jobs : List SchedJob) : List SchedJob :=
  jobs.map (fun j => if j.id = i then { j with nextRun := now + j.interval } else j)

/-- Run the snapshot of due jobs in order against the evolving store; an
exception (`SystemExit`) aborts the remainder of the tick. -/
def runDue (sendOk : Bool) (now : Int) :
    List SchedJob → List SchedJob → List SchedJob × Bool
  | [], jobs => (jobs, false)
  | j :: rest, jobs =>
    match runJob sendOk j jobs with
    | (jobs1, true) => (jobs1, true)
    | (jobs1, false) => runDue sendOk now rest (reschedule j.id now jobs1)

/-- `schedule.run_pending()`: snapshot the due jobs (`next_run <= now`),
sort by `next_run`, run them in order. -/
def run_pending (sendOk : Bool) (now : Int) (jobs : List SchedJob) :
    List SchedJob × Bool :=
  runDue sendOk now (sortByNextRun (jobs.filter (fun j => decide (j.nextRun ≤ now)))) jobs

/-- `EmailScheduler.run_scheduler` (email_scheduler.py lines 334-343):
`while True: schedule.run_pending(); time.sleep(60)`, with `SystemExit`
caught, logged and re-raised — i.e. the loop terminates exactly when a tick
raises.  `fuel` bounds how many ticks we observe: `some store` means the loop
stopped (via `SystemExit`) leaving `store` behind, `none` means it was still
running after `fuel` ticks. -/
def run_scheduler (sendOk : Bool) : Nat → Int → List SchedJob → Option (List SchedJob)
  | 0, _, _ => none
  | fuel + 1, now, jobs =>
    match run_pending sendOk now jobs with
    | (jobs1, true) => some jobs1
    | (jobs1, false) => run_scheduler sendOk fuel (now + 60) jobs1

/-! ## Conversation state and memory (telegram_bot.py) -/

/-- Message roles of the OpenAI chat dicts built by the bot:
`"system"`, `"user"`, `"assistant"`, `"function"`. -/
inductive Role where
  | system
  | user
  | assistant
  | function
deriving DecidableEq, Repr

/-- One entry of `conversation_memory[user_id]["messages"]` (and of the built
context): `{"role": ..., "content": ...}`. -/
structure Turn where
  role : Role
  content : List Char
deriving DecidableEq, Repr

/-- Python's `messages[-k:]`: the last `k` elements — except that `k = 0`
gives `messages[0:]`, the whole list. -/
def pySliceLast (k : Nat) (l : List Turn) : List Turn :=
  if k = 0 then l else l.drop (l.length - k)

/-- `add_to_memory` (telegram_bot.py lines 183-194): append, then prune with
`messages[-max_history:]` when the length exceeds the configured maximum. -/
def add_to_memory (maxHistory : Nat) (msgs : List Turn) (role : Role)
    (content : List Char) : List Turn :=
  let msgs1 := msgs ++ [⟨role, content⟩]
  if maxHistory < msgs1.length then pySliceLast maxHistory msgs1 else msgs1

/-- The instructional preamble of `get_conversation_context`, with the
user's target address interpolated where the f-string holds
`{user_email}`. -/
def systemPrompt (userEmail : List Char) : List Char :=
  ("Jestes pomocnym botem do planowania wysylki emaili. \n\nINSTRUKCJE:\n1. Analizuj wiadomosci uzytkownikow i wyciagaj informacje o planowanym emailu\n2. Zawsze wysylaj emaile na adres: ".toList) ++
  userEmail ++
  ("\n3. Sam decyduj jaki ma byc temat i tresc emaila na podstawie widoamosci od uzytkownika.\n4. Daty podawaj w formacie: DD.MM.RRRR HH:MM lub \"za X minut/godzin/dni\"\n5. Przed ustaleniem daty wysylki emaila zawsze wywołaj funkcję get_actual_datetime() aby uzyskać aktualną datę i godzinę\n6. Pamiętaj, ze Twoim glownym zadaniem jest planowanie wysylki emaili.\n\nDOSTĘPNE FUNKCJE:\n- get_actual_datetime(): Zwraca aktualną datę i godzinę w formacie DD.MM.RRRR HH:MM\n- get_user_email(): Zwraca aktualny email użytkownika na który będą wysyłane emaile\n\nUżyj tych funkcji gdy potrzebujesz aktualnych informacji!\n\nFORMAT ODPOWIEDZI:\n- Jesli masz wszystkie dane: \"GOTOWE: temat|tresc|data_wysylki\"\n\nPrzyklad kompletnych danych:\nGOTOWE: Przypomnienie o spotkaniu|Spotkanie za 15 minut w sali konferencyjnej|za 2 godziny".toList)

/-- `get_conversation_context` (telegram_bot.py lines 196-233): the system
preamble followed by the user's stored history. -/
def get_conversation_context (userEmail : List Char) (msgs : List Turn) :
    List Turn :=
  ⟨Role.system, systemPrompt userEmail⟩ :: msgs

/-- The deterministic prefix of `analyze_message_with_ai` (telegram_bot.py
lines 248-266), up to the external OpenAI call: reject an empty message
(`none`), otherwise append the user message to memory, build the context from
the *updated* memory, and drop context entries with empty content
(`clean_context`).  Returns the new memory together with the context that is
sent to the reasoning capability. -/
def analyze_prepare (maxHistory : Nat) (userEmail userMsg : List Char)
    (msgs : List Turn) : Option (List Turn × List Turn) :=
  if userMsg = [] ∨ pyStrip userMsg = [] then none
  else
    let msgs1 := add_to_memory maxHistory msgs Role.user userMsg
    some (msgs1, (get_conversation_context userEmail msgs1).filter
      (fun t => !t.content.isEmpty))

/-! ## Attachment correlation and scheduling dispatch (telegram_bot.py) -/

/-- The scan in `handle_document` (lines 636-641): walk
`reversed(memory["messages"])` and take the content of the first turn whose
role is `"assistant"` — i.e. of the most recent assistant turn, whatever it
contains. -/
def lastAssistant (msgs : List Turn) : Option (List Char) :=
  (msgs.reverse.find? (fun t => decide (t.role = Role.assistant))).map Turn.content

/-- The `{subject, body, send_time}` dict carried by the `schedule_email`
action. -/
structure EmailData where
  subject : List Char
  body : List Char
  sendTime : List Char
deriving DecidableEq, Repr

/-- The user-facing result of `schedule_email_from_ai`: the success message
(carrying subject, recipient and resolved instant) or the error message of
its `except` branch.  In this model every reachable path succeeds, mirroring
the fact that `parse_send_time` never raises and `schedule_email_datetime`
swallows past dates. -/
inductive AiReply where
  | success (subject recipient : List Char) (sendDt : Int)
  | failure
deriving DecidableEq, Repr

/-- Per-user bot state touched by the handlers: the `waiting_for_attachment`
flag (membership of the user in `email_planning_state`), the conversation
memory, the global `schedule` job store, and the resolved target address
(`get_user_email`). -/
structure BotState where
  planning : Bool
  msgs : List Turn
  jobs : List SchedJob
  targetEmail : List Char
deriving DecidableEq, Repr

/-- `schedule_email_from_ai` (telegram_bot.py lines 437-484): resolve the
time expression, register the job (a no-op when the resolved instant is not
in the future), clear the planning state, and report success.  The background
scheduler thread started afterwards is outside this sequential model. -/
def schedule_email_from_ai (st : BotState) (now : Int) (data : EmailData)
    (attachment : Option (List Char)) : BotState × AiReply :=
  let sendDt := parse_send_time data.sendTime now
  let atts := match attachment with
    | some p => [p]
    | none => []
  let jobs1 := schedule_email_datetime now st.targetEmail data.subject data.body
    sendDt atts st.jobs
  ({ st with jobs := jobs1, planning := false },
   .success data.subject st.targetEmail sendDt)

/-- The reply produced by `handle_document`. -/
inductive DocReply where
  | rejected
  | finalized (r : AiReply)
  | acknowledged
  | errorReply
deriving DecidableEq, Repr

/-- `handle_document` (telegram_bot.py lines 607-655).  Faithful control
flow: reject when the user is not in `email_planning_state`; otherwise look
only at the most recent assistant turn; when its raw content starts with
`"GOTOWE:"` re-parse it and finalize through `schedule_email_from_ai` with
the saved path attached; a marker turn that `parse_ai_response` maps to
`None` makes the tuple unpacking raise `TypeError`, caught by the handler's
`except` (the error reply); anything else just acknowledges the saved
file. -/
def handle_document (st : BotState) (now : Int) (attachmentPath : List Char) :
    BotState × DocReply :=
  if st.planning = false then (st, .rejected)
  else
    match lastAssistant st.msgs with
    | some m =>
      if gotoweTok.isPrefixOf m then
        match parse_ai_response m with
        | some (.scheduleEmail s b t) =>
          let p := schedule_email_from_ai st now ⟨s, b, t⟩ (some attachmentPath)
          (p.1, .finalized p.2)
        | _ => (st, .errorReply)
      else (st, .acknowledged)
    | none => (st, .acknowledged)

/-! ## Helper lemmas about the string primitives -/

theorem isSpaceCh_of_isDigitCh {c : Char} (h : isDigitCh c = true) :
    isSpaceCh c = false := by
  simp only [isDigitCh, decide_eq_true_eq] at h
  simp only [isSpaceCh, decide_eq_false_iff_not]
  omega

theorem lowerCh_of_isDigitCh {c : Char} (h : isDigitCh c = true) : lowerCh c = c := by
  simp only [isDigitCh, decide_eq_true_eq] at h
  unfold lowerCh
  rw [if_neg (by omega : ¬(65 ≤ c.toNat ∧ c.toNat ≤ 90))]

theorem map_lowerCh_digits {ds : List Char} (h : ∀ c ∈ ds, isDigitCh c = true) :
    ds.map lowerCh = ds := by
  induction ds with
  | nil => rfl
  | cons d tl ih =>
    rw [List.map_cons, lowerCh_of_isDigitCh (h d (List.mem_cons_self d tl)),
      ih (fun c hc => h c (List.mem_cons_of_mem d hc))]

theorem readDigitsAux_digits {l : List Char} :
    ∀ {acc v : Nat}, readDigitsAux l acc = some v → ∀ c ∈ l, isDigitCh c = true := by
  induction l with
  | nil => intro acc v _ c hc; simp at hc
  | cons d tl ih =>
    intro acc v h c hc
    simp only [readDigitsAux] at h
    by_cases hd : isDigitCh d = true
    · rw [if_pos hd] at h
      rcases List.mem_cons.mp hc with rfl | hc2
      · exact hd
      · exact ih h c hc2
    · rw [if_neg hd] at h
      cases h

theorem pyStrip_eq_self {l : List Char}
    (h1 : ∀ c, l.head? = some c → isSpaceCh c = false)
    (h2 : ∀ c, l.getLast? = some c → isSpaceCh c = false) :
    pyStrip l = l := by
  cases l with
  | nil => rfl
  | cons a as =>
    have ha : isSpaceCh a = false := h1 a rfl
    unfold pyStrip
    rw [List.dropWhile_cons, if_neg (by simp [ha])]
    cases hrev : (a :: as).reverse with
    | nil => simp at hrev
    | cons b bs =>
      have hb : (a :: as).getLast? = some b := by
        rw [← List.head?_reverse, hrev]
        rfl
      rw [List.dropWhile_cons, if_neg (by simp [h2 b hb]), ← hrev,
        List.reverse_reverse]

theorem splitWsAux_word (u : List Char) :
    ∀ acc : List Char, (∀ c ∈ u, isSpaceCh c = false) →
      splitWsAux u acc = if acc.reverse ++ u = [] then [] else [acc.reverse ++ u] := by
  induction u with
  | nil =>
    intro acc _
    simp only [splitWsAux, List.append_nil]
    by_cases hacc : acc = []
    · subst hacc
      simp
    · rw [if_neg hacc, if_neg (by simp [hacc])]
  | cons d tl ih =>
    intro acc h
    have hd : isSpaceCh d = false := h d (List.mem_cons_self d tl)
    simp only [splitWsAux]
    rw [if_neg (by simp [hd]), ih (d :: acc) (fun c hc => h c (List.mem_cons_of_mem d hc))]
    have hrw : (d :: acc).reverse ++ tl = acc.reverse ++ d :: tl := by simp
    rw [hrw]

theorem splitWsAux_break (u : List Char) :
    ∀ acc rest : List Char, (∀ c ∈ u, isSpaceCh c = false) →
      splitWsAux (u ++ ' ' :: rest) acc =
        if acc.reverse ++ u = [] then splitWsAux rest []
        else (acc.reverse ++ u) :: splitWsAux rest [] := by
  induction u with
  | nil =>
    intro acc rest _
    have hstep : splitWsAux (' ' :: rest) acc =
        if acc = [] then splitWsAux rest [] else acc.reverse :: splitWsAux rest [] := rfl
    simp only [List.nil_append, hstep, List.append_nil]
    by_cases hacc : acc = []
    · subst hacc
      simp
    · rw [if_neg hacc, if_neg (by simp [hacc])]
  | cons d tl ih =>
    intro acc rest h
    have hd : isSpaceCh d = false := h d (List.mem_cons_self d tl)
    have hstep : splitWsAux ((d :: tl) ++ ' ' :: rest) acc =
        splitWsAux (tl ++ ' ' :: rest) (d :: acc) := by
      simp only [List.cons_append, splitWsAux]
      rw [if_neg (by simp [hd])]
      rfl
    rw [hstep, ih (d :: acc) rest (fun c hc => h c (List.mem_cons_of_mem d hc))]
    have hrw : (d :: acc).reverse ++ tl = acc.reverse ++ d :: tl := by simp
    rw [hrw]

theorem isPrefixOf_append_self (l t : List Char) : l.isPrefixOf (l ++ t) = true := by
  induction l with
  | nil => simp [List.isPrefixOf]
  | cons a as ih => simp [List.isPrefixOf, ih]

theorem pySplitWs_za (ds u : List Char) (hne : ds ≠ [])
    (hds : ∀ c ∈ ds, isSpaceCh c = false)
    (hu_ne : u ≠ []) (hu_ns : ∀ c ∈ u, isSpaceCh c = false) :
    pySplitWs ("za ".toList ++ ds ++ ' ' :: u) = [['z', 'a'], ds, u] := by
  have hstep : pySplitWs ("za ".toList ++ ds ++ ' ' :: u) =
      ['z', 'a'] :: splitWsAux (ds ++ ' ' :: u) [] := rfl
  rw [hstep, splitWsAux_break ds [] u hds]
  simp only [List.reverse_nil, List.nil_append]
  rw [if_neg hne, splitWsAux_word u [] hu_ns]
  simp only [List.reverse_nil, List.nil_append]
  rw [if_neg hu_ne]

theorem pyInt_digits {ds : List Char} {N : Nat} (hne : ds ≠ [])
    (hv : readDigitsAux ds 0 = some N) : pyInt ds = some (N : Int) := by
  have hdig : ∀ c ∈ ds, isDigitCh c = true := readDigitsAux_digits hv
  obtain ⟨d, tl, rfl⟩ := List.exists_cons_of_ne_nil hne
  have hd : isDigitCh d = true := hdig d (List.mem_cons_self d tl)
  have hstrip : pyStrip (d :: tl) = d :: tl := by
    apply pyStrip_eq_self
    · intro c hc
      rw [List.head?_cons] at hc
      injection hc with hc
      rw [← hc]
      exact isSpaceCh_of_isDigitCh hd
    · intro c hc
      have hmem : c ∈ d :: tl := by
        rcases List.mem_getLast?_eq_getLast (show c ∈ (d :: tl).getLast? from hc) with
          ⟨hne2, rfl⟩
        exact List.getLast_mem hne2
      exact isSpaceCh_of_isDigitCh (hdig c hmem)
  have hplus : ¬(d = '+') := by
    intro h
    rw [h] at hd
    simp [isDigitCh] at hd
  have hminus : ¬(d = '-') := by
    intro h
    rw [h] at hd
    simp [isDigitCh] at hd
  simp only [pyInt, hstrip]
  rw [if_neg hplus, if_neg hminus]
  simp [readDigits, hv]

theorem normTime_za (ds u : List Char) (_hne : ds ≠ [])
    (hdig : ∀ c ∈ ds, isDigitCh c = true)
    (hu_ne : u ≠ []) (hu_ns : ∀ c ∈ u, isSpaceCh c = false)
    (hu_low : u.map lowerCh = u) :
    normTime ("za ".toList ++ ds ++ ' ' :: u) = "za ".toList ++ ds ++ ' ' :: u := by
  have hstrip : pyStrip ("za ".toList ++ ds ++ ' ' :: u) =
      "za ".toList ++ ds ++ ' ' :: u := by
    apply pyStrip_eq_self
    · intro c hc
      have hred : ("za ".toList ++ ds ++ ' ' :: u) =
          'z' :: 'a' :: ' ' :: (ds ++ ' ' :: u) := rfl
      rw [hred, List.head?_cons] at hc
      injection hc with hc
      rw [← hc]
      decide
    · intro c hc
      have hlast : ("za ".toList ++ ds ++ ' ' :: u).getLast? = u.getLast? := by
        rw [List.getLast?_append_cons]
        cases u with
        | nil => exact absurd rfl hu_ne
        | cons b bs => rw [List.getLast?_cons_cons]
      rw [hlast] at hc
      have hmem : c ∈ u := by
        rcases List.mem_getLast?_eq_getLast (show c ∈ u.getLast? from hc) with ⟨hne2, rfl⟩
        exact List.getLast_mem hne2
      exact hu_ns c hmem
  have hA : List.map lowerCh ("za ".toList) = "za ".toList := by decide
  have hsp : lowerCh ' ' = ' ' := by decide
  simp only [normTime, hstrip, pyLower, List.map_append, List.map_cons, hA, hsp,
    map_lowerCh_digits hdig, hu_low]

theorem parse_send_time_za_unit (ds u : List Char) (N : Nat) (now : Int)
    (hne : ds ≠ []) (hval : readDigitsAux ds 0 = some N)
    (hu_ne : u ≠ []) (hu_ns : ∀ c ∈ u, isSpaceCh c = false)
    (hu_low : u.map lowerCh = u) :
    parse_send_time ("za ".toList ++ ds ++ ' ' :: u) now =
      (if pyIn ("minut".toList) u then now + (N : Int) * 60
       else if pyIn ("godzin".toList) u then now + (N : Int) * 3600
       else if pyIn ("dni".toList) u then now + (N : Int) * 86400
       else now + 3600) := by
  have hdig : ∀ c ∈ ds, isDigitCh c = true := readDigitsAux_digits hval
  have hds : ∀ c ∈ ds, isSpaceCh c = false :=
    fun c hc => isSpaceCh_of_isDigitCh (hdig c hc)
  have hnorm := normTime_za ds u hne hdig hu_ne hu_ns hu_low
  have hsplit := pySplitWs_za ds u hne hds hu_ne hu_ns
  have hza : ("za ".toList).isPrefixOf ("za ".toList ++ ds ++ ' ' :: u) = true :=
    isPrefixOf_append_self ("za ".toList) (ds ++ ' ' :: u)
  unfold parse_send_time
  rw [hnorm, if_pos hza]
  simp only [relBranch, hsplit, List.length_cons, List.length_nil,
    List.getD_cons_succ, List.getD_cons_zero, pyInt_digits hne hval]
  norm_num

/-- Claim C7: for every nonnegative integer `N` (written as a nonempty decimal
digit string `ds` denoting `N`) and every `now`, `parse_send_time` applied to
the relative expression `"za N godzin"` returns exactly `now + N` hours, and
analogously `now + N` minutes for `"za N minut"` and `now + N` days for
`"za N dni"`. -/
theorem parse_send_time_relative (ds : List Char) (N : Nat) (now : Int)
    (hne : ds ≠ []) (hval : readDigitsAux ds 0 = some N) :
    parse_send_time ("za ".toList ++ ds ++ " godzin".toList) now = now + (N : Int) * 3600 ∧
    parse_send_time ("za ".toList ++ ds ++ " minut".toList) now = now + (N : Int) * 60 ∧
    parse_send_time ("za ".toList ++ ds ++ " dni".toList) now = now + (N : Int) * 86400 := by
  refine ⟨?_, ?_, ?_⟩
  · show parse_send_time ("za ".toList ++ ds ++ ' ' :: "godzin".toList) now = _
    rw [parse_send_time_za_unit ds ("godzin".toList) N now hne hval (by decide)
      (by decide) (by decide)]
    rw [if_neg (by decide), if_pos (by decide)]
  · show parse_send_time ("za ".toList ++ ds ++ ' ' :: "minut".toList) now = _
    rw [parse_send_time_za_unit ds ("minut".toList) N now hne hval (by decide)
      (by decide) (by decide)]
    rw [if_pos (by decide)]
  · show parse_send_time ("za ".toList ++ ds ++ ' ' :: "dni".toList) now = _
    rw [parse_send_time_za_unit ds ("dni".toList) N now hne hval (by decide)
      (by decide) (by decide)]
    rw [if_neg (by decide), if_neg (by decide), if_pos (by decide)]

/-- Witness for C7 at the concrete inputs `"za 2 godzin"`, `"za 2 minut"`,
`"za 2 dni"` with `now = 0`. -/
theorem parse_send_time_relative_witness :
    parse_send_time ("za 2 godzin".toList) 0 = 0 + (2 : Int) * 3600 ∧
    parse_send_time ("za 2 minut".toList) 0 = 0 + (2 : Int) * 60 ∧
    parse_send_time ("za 2 dni".toList) 0 = 0 + (2 : Int) * 86400 := by
  have h := parse_send_time_relative ("2".toList) 2 0 (by decide) (by decide)
  have h1 : ("za 2 godzin".toList) = "za ".toList ++ "2".toList ++ " godzin".toList := by
    decide
  have h2 : ("za 2 minut".toList) = "za ".toList ++ "2".toList ++ " minut".toList := by
    decide
  have h3 : ("za 2 dni".toList) = "za ".toList ++ "2".toList ++ " dni".toList := by
    decide
  exact ⟨h1 ▸ h.1, h2 ▸ h.2.1, h3 ▸ h.2.2⟩

/-! ## The code's actual branch conditions for `parse_send_time`

These three predicates transcribe the *code's* branch conditions
(telegram_bot.py lines 376-412), which are laxer than the spec's grammars:
the relative branch fires on the `"za "` prefix with *at least* three
whitespace tokens (extra tokens ignored), a second token accepted by
Python's `int` (signs included) and a third token *containing* one of the
substrings `minut`/`godzin`/`dni`; the absolute and clock branches fire
whenever their field extraction (`absParse` / `clockFields`, with the same
lax `int`) succeeds.  Per the `if`/`elif` chain, each later condition is
guarded by the failure of the earlier ones.  The fallback theorem below
proves `now + 1 hour` for every input outside all three. -/

/-- The condition under which the code's `"za X minut/godzin/dni"` branch
returns early (an early `return` inside `relBranch`). -/
def codeRelativeMatch (s : List Char) : Prop :=
  ("za ".toList).isPrefixOf (normTime s) = true ∧
  3 ≤ (pySplitWs (normTime s)).length ∧
  (pyInt ((pySplitWs (normTime s)).getD 1 [])).isSome = true ∧
  (pyIn ("minut".toList) ((pySplitWs (normTime s)).getD 2 []) = true ∨
   pyIn ("godzin".toList) ((pySplitWs (normTime s)).getD 2 []) = true ∨
   pyIn ("dni".toList) ((pySplitWs (normTime s)).getD 2 []) = true)

/-- The condition under which the code's `"DD.MM.RRRR HH:MM"` branch returns
a parsed instant, guarded by the failure of the relative branch's prefix
test. -/
def codeAbsoluteMatch (s : List Char) : Prop :=
  ¬(("za ".toList).isPrefixOf (normTime s) = true) ∧
  (pyIn (".".toList) (normTime s) = true ∧ pyIn (":".toList) (normTime s) = true) ∧
  (absParse (normTime s)).isSome = true

/-- The condition under which the code's `"HH:MM"` branch returns a parsed
instant, guarded by the failure of the two earlier branch guards. -/
def codeClockMatch (s : List Char) : Prop :=
  ¬(("za ".toList).isPrefixOf (normTime s) = true) ∧
  ¬(pyIn (".".toList) (normTime s) = true ∧ pyIn (":".toList) (normTime s) = true) ∧
  ((normTime s).length = 5 ∧ pyIn (":".toList) (normTime s) = true) ∧
  (clockFields (normTime s)).isSome = true

instance (s : List Char) : Decidable (codeRelativeMatch s) := by
  unfold codeRelativeMatch
  infer_instance

instance (s : List Char) : Decidable (codeAbsoluteMatch s) := by
  unfold codeAbsoluteMatch
  infer_instance

instance (s : List Char) : Decidable (codeClockMatch s) := by
  unfold codeClockMatch
  infer_instance

/-! ## Spec-side grammar predicates (spec §4.2, following the spec's words)

The spec's three recognized grammars, read on the normalised expression:
grammar 1 is the three-token `"za <N> <unit>"` with `<N>` a decimal numeral
and the unit *stem* matching `minut*` / `godzin*` / `dni*` (the unit starts
with one of the three stems); grammar 2 is the literal shape
`"<DD>.<MM>.<YYYY> <HH>:<MM>"` (two-digit day and month, four-digit year,
two-digit hour and minute) denoting a valid calendar instant; grammar 3 is
"exactly 5 characters matching `<HH>:<MM>`" with a valid hour and minute.
Per "any parse error within the above → fallback", an out-of-range value is
a non-match.  The three shapes are mutually exclusive, so no priority guard
is needed.  These predicates are compared with the code's conditions above
in the C6 counterexample: the code's conditions are strictly laxer. -/

/-- The numeric value of an ASCII digit character. -/
def digitVal (c : Char) : Nat :=
  c.toNat - 48

/-- A decimal numeral: a nonempty string of ASCII digits. -/
def isDigitStr (l : List Char) : Bool :=
  decide (l ≠ []) && l.all isDigitCh

/-- Spec grammar 1 (its words, not the code's condition): exactly the three
tokens `za <N> <unit>`, `<N>` a decimal numeral, the unit stem matching
`minut*`, `godzin*` or `dni*`. -/
def specRelativeMatch (s : List Char) : Bool :=
  match pySplitWs (normTime s) with
  | [za, n, u] =>
    decide (za = "za".toList) && isDigitStr n &&
      (("minut".toList).isPrefixOf u || ("godzin".toList).isPrefixOf u ||
        ("dni".toList).isPrefixOf u)
  | _ => false

/-- Spec grammar 2 (its words, not the code's condition): the exact shape
`<DD>.<MM>.<YYYY> <HH>:<MM>` whose component values form a valid calendar
datetime. -/
def specAbsoluteMatch (s : List Char) : Bool :=
  match normTime s with
  | [d1, d2, c1, m1, m2, c2, y1, y2, y3, y4, sp, h1, h2, c3, n1, n2] =>
    decide (c1 = '.') && decide (c2 = '.') && decide (sp = ' ') &&
    decide (c3 = ':') &&
    [d1, d2, m1, m2, y1, y2, y3, y4, h1, h2, n1, n2].all isDigitCh &&
    validDate
      ((digitVal y1 * 1000 + digitVal y2 * 100 + digitVal y3 * 10 + digitVal y4 : Nat) : Int)
      ((digitVal m1 * 10 + digitVal m2 : Nat) : Int)
      ((digitVal d1 * 10 + digitVal d2 : Nat) : Int)
      ((digitVal h1 * 10 + digitVal h2 : Nat) : Int)
      ((digitVal n1 * 10 + digitVal n2 : Nat) : Int)
  | _ => false

/-- Spec grammar 3 (its words, not the code's condition): exactly five
characters `<HH>:<MM>` with a valid hour and minute. -/
def specClockMatch (s : List Char) : Bool :=
  match normTime s with
  | [h1, h2, c, n1, n2] =>
    decide (c = ':') && [h1, h2, n1, n2].all isDigitCh &&
    decide (digitVal h1 * 10 + digitVal h2 ≤ 23) &&
    decide (digitVal n1 * 10 + digitVal n2 ≤ 59)
  | _ => false

/-- Claim C6 (amended): the guaranteed `now + 1 hour` fallback holds for
every input outside the *code's* branch conditions (`codeRelativeMatch`,
`codeAbsoluteMatch`, `codeClockMatch` above) — including every input that
triggers a parse error inside a branch — but those conditions are laxer than
the spec's three grammars: the unit is matched by substring rather than by
stem and extra tokens are tolerated, so some inputs matching *no* spec
grammar (e.g. `"za 2 wgodzin"`) are still interpreted instead of falling
back. -/
theorem parse_send_time_fallback (s : List Char) (now : Int)
    (h : ¬(codeRelativeMatch s ∨ codeAbsoluteMatch s ∨ codeClockMatch s)) :
    parse_send_time s now = now + 3600 := by
  push_neg at h
  obtain ⟨hrel, habs, hclk⟩ := h
  unfold parse_send_time
  split
  · next hza =>
      unfold relBranch
      split
      · next hlen =>
          split
          · next amount hint =>
              split
              · next hm => exact absurd ⟨hza, hlen, by rw [hint]; rfl, Or.inl hm⟩ hrel
              · next hm =>
                  split
                  · next hg =>
                      exact absurd ⟨hza, hlen, by rw [hint]; rfl, Or.inr (Or.inl hg)⟩ hrel
                  · next hg =>
                      split
                      · next hd =>
                          exact absurd ⟨hza, hlen, by rw [hint]; rfl, Or.inr (Or.inr hd)⟩
                            hrel
                      · next hd => rfl
          · next hint => rfl
      · next hlen => rfl
  · next hza =>
      split
      · next hdc =>
          split
          · next v heq => exact absurd ⟨hza, hdc, by simp [heq]⟩ habs
          · next heq => rfl
      · next hdc =>
          split
          · next hck =>
              split
              · next hm heq =>
                  exact absurd ⟨hza, hdc, hck, by simp [heq]⟩ hclk
              · next heq => rfl
          · next hck => rfl

/-- Witness for the amended C6: the input `"hello"` satisfies none of the
code's branch conditions, and the parser returns `now + 1 hour` at
`now = 0`. -/
theorem parse_send_time_fallback_witness :
    ¬(codeRelativeMatch ("hello".toList) ∨ codeAbsoluteMatch ("hello".toList) ∨
        codeClockMatch ("hello".toList)) ∧
    parse_send_time ("hello".toList) 0 = 0 + 3600 :=
  ⟨by decide, parse_send_time_fallback ("hello".toList) 0 (by decide)⟩

/-- Counterexample to claim C6 as stated: `"za 2 wgodzin"` (unit stem not
matching `minut*`/`godzin*`/`dni*` — the code's *substring* test still finds
`"godzin"` inside `"wgodzin"`) and `"za 2 godzin xyz"` (four tokens, not the
spec's `za <N> <unit>`) match none of the spec's three recognized grammars,
yet `parse_send_time` returns `now + 2` hours for both instead of the
claimed `now + 1` hour fallback. -/
theorem parse_send_time_fallback_gap :
    specRelativeMatch ("za 2 wgodzin".toList) = false ∧
    specAbsoluteMatch ("za 2 wgodzin".toList) = false ∧
    specClockMatch ("za 2 wgodzin".toList) = false ∧
    parse_send_time ("za 2 wgodzin".toList) 0 ≠ 0 + 3600 ∧
    parse_send_time ("za 2 wgodzin".toList) 0 = 0 + 2 * 3600 ∧
    specRelativeMatch ("za 2 godzin xyz".toList) = false ∧
    specAbsoluteMatch ("za 2 godzin xyz".toList) = false ∧
    specClockMatch ("za 2 godzin xyz".toList) = false ∧
    parse_send_time ("za 2 godzin xyz".toList) 0 ≠ 0 + 3600 ∧
    parse_send_time ("za 2 godzin xyz".toList) 0 = 0 + 2 * 3600 := by
  decide

/-- Claim C5 (amended): `parse_send_time` indeed returns normally on every
modelled input, but its result is not always a *future* instant: whenever the
absolute `"DD.MM.YYYY HH:MM"` grammar fires, the parser returns exactly the
parsed absolute instant, with no comparison against `now` — so for a past
date the result is at or before `now`. -/
theorem parse_send_time_absolute (s : List Char) (now v : Int)
    (h1 : ¬(("za ".toList).isPrefixOf (normTime s) = true))
    (h2 : pyIn (".".toList) (normTime s) = true ∧ pyIn (":".toList) (normTime s) = true)
    (h3 : absParse (normTime s) = some v) :
    parse_send_time s now = v := by
  unfold parse_send_time
  rw [if_neg h1, if_pos h2, h3]

/-- Witness for the amended C5: the absolute expression `"01.01.2020 10:00"`
parses to that instant whatever `now` is (here `now = 0`). -/
theorem parse_send_time_absolute_witness :
    parse_send_time ("01.01.2020 10:00".toList) 0 = dtSeconds 2020 1 1 10 0 :=
  parse_send_time_absolute ("01.01.2020 10:00".toList) 0 (dtSeconds 2020 1 1 10 0)
    (by decide) (by decide) (by decide)

/-- Counterexample to claim C5 as stated: with `now` at 2024-01-01 12:00, the
absolute expression `"01.01.2020 10:00"` yields an instant strictly *before*
`now`, contradicting "its result is a concrete future instant, i.e. an
instant strictly after now". -/
theorem parse_send_time_past_instant :
    parse_send_time ("01.01.2020 10:00".toList) (dtSeconds 2024 1 1 12 0) <
      dtSeconds 2024 1 1 12 0 := by decide

/-- Claim C1 (amended): for a response whose stripped text begins with the
ready marker, `parse_ai_response` yields `schedule_email` whenever the field
count is at least 3 (the first three trimmed fields, extras ignored), and
yields *no action at all* (Python `None`, a `TypeError` at the unpacking call
site) when the field count is below 3 — it does not fall through to
`text_response`. -/
theorem parse_ai_response_marker (response : List Char)
    (h : gotoweTok.isPrefixOf (pyStrip response) = true) :
    ((gotoweParts response).length < 3 → parse_ai_response response = none) ∧
    (3 ≤ (gotoweParts response).length →
      parse_ai_response response =
        some (AIAction.scheduleEmail (pyStrip ((gotoweParts response).getD 0 []))
          (pyStrip ((gotoweParts response).getD 1 []))
          (pyStrip ((gotoweParts response).getD 2 [])))) := by
  constructor
  · intro hlt
    unfold parse_ai_response
    rw [if_pos h, if_neg (by omega)]
  · intro hge
    unfold parse_ai_response
    rw [if_pos h, if_pos hge]

/-- Witness for the amended C1: `"GOTOWE: only|two"` (two fields) yields no
action; `"GOTOWE: a|b|c"` (three fields) yields the `schedule_email`
action. -/
theorem parse_ai_response_marker_witness :
    parse_ai_response ("GOTOWE: only|two".toList) = none ∧
    parse_ai_response ("GOTOWE: a|b|c".toList) =
      some (AIAction.scheduleEmail ("a".toList) ("b".toList) ("c".toList)) := by
  constructor
  · exact (parse_ai_response_marker ("GOTOWE: only|two".toList) (by decide)).1 (by decide)
  · rw [(parse_ai_response_marker ("GOTOWE: a|b|c".toList) (by decide)).2 (by decide)]
    decide

/-- Counterexample to claim C1 as stated: the two-field response
`"GOTOWE: only|two"` is *not* echoed back as `text_response` (the parser
returns `None`), and the four-field response `"GOTOWE: a|b|c|d"` *does* match
the `schedule_email` rule even though its field count is not exactly 3. -/
theorem parse_ai_response_not_text_echo :
    parse_ai_response ("GOTOWE: only|two".toList) ≠
      some (AIAction.textResponse ("GOTOWE: only|two".toList)) ∧
    parse_ai_response ("GOTOWE: only|two".toList) = none ∧
    parse_ai_response ("GOTOWE: a|b|c|d".toList) =
      some (AIAction.scheduleEmail ("a".toList) ("b".toList) ("c".toList)) := by
  decide

/-! ## Concrete scheduler scenario shared by the C2 and C4 results -/

/-- The store produced by scheduling one email to `a@b.c` for instant 600
at time 0: a single one-shot job, due at 600, tagged
`"once_a@b.c_600.0"`. -/
def onceDemoStore : List SchedJob :=
  schedule_email_datetime 0 ("a@b.c".toList) ("subj".toList) ("body".toList) 600 [] []

/-- The job inside `onceDemoStore`, spelled out. -/
def onceDemoJob : SchedJob :=
  { id := 0, tags := [onceFullTag ("a@b.c".toList) 600], nextRun := 600,
    interval := 600, once := true, toEmail := "a@b.c".toList,
    subject := "subj".toList, body := "body".toList, attachments := [] }

/-- Claim C2 (code bug, evaluated at the failing input): when the one-shot
job fires at tick 600 — with the send succeeding or failing — the store
afterwards still contains the job: `send_scheduled_email_once` clears the tag
`"once_a@b.c"`, but the job carries only `"once_a@b.c_600.0"` and
`schedule.clear` matches tags exactly, so nothing is removed and the job is
*not* absent from the store. -/
theorem onceJob_not_removed_after_firing :
    run_pending true 600 onceDemoStore = (onceDemoStore, true) ∧
    run_pending false 600 onceDemoStore = (onceDemoStore, true) ∧
    onceDemoStore = [onceDemoJob] ∧
    onceFullTag ("a@b.c".toList) 600 ≠ onceClearTag ("a@b.c".toList) := by
  decide

/-- Claim C4 (amended): a one-shot job's bound function signals `SystemExit`
upon completion — regardless of whether the send succeeded — and whenever a
tick raises, `run_scheduler` stops, returning the store the tick left
behind. -/
theorem onceJob_abort_stops_loop (b : Bool) (j : SchedJob) (jobs : List SchedJob)
    (fuel : Nat) (now : Int)
    (hone : j.once = true)
    (hpend : (run_pending b now jobs).2 = true) :
    (runJob b j jobs).2 = true ∧
    run_scheduler b (fuel + 1) now jobs = some (run_pending b now jobs).1 := by
  constructor
  · simp [runJob, hone]
  · unfold run_scheduler
    cases hp : run_pending b now jobs with
    | mk js flag =>
      rw [hp] at hpend
      simp at hpend
      subst hpend
      rfl

/-- Witness for the amended C4: the demo one-shot job signals `SystemExit`
and the loop stops at the first tick. -/
theorem onceJob_abort_stops_loop_witness :
    (runJob true onceDemoJob onceDemoStore).2 = true ∧
    run_scheduler true 1 600 onceDemoStore = some (run_pending true 600 onceDemoStore).1 :=
  onceJob_abort_stops_loop true onceDemoJob onceDemoStore 0 600 (by decide) (by decide)

/-- Counterexample to claim C4 as stated: the abort is *not* tied to the
job's successful completion — here the send fails (`sendOk = false`) and the
scheduler loop is aborted all the same. -/
theorem scheduler_aborts_on_failed_send :
    run_scheduler false 1 600 onceDemoStore = some onceDemoStore := by decide

/-- Claim C8: when the user's `waiting_for_attachment` flag is down, an
arriving file is rejected with the fixed reply and the whole state — planning
flag, conversation history, job store — is returned unchanged. -/
theorem handle_document_not_waiting (st : BotState) (now : Int) (path : List Char)
    (h : st.planning = false) :
    handle_document st now path = (st, DocReply.rejected) := by
  unfold handle_document
  rw [if_pos h]

/-- A user with no pending attachment request. -/
def idleState : BotState :=
  { planning := false, msgs := [⟨Role.user, "czesc".toList⟩], jobs := [],
    targetEmail := "a@b.c".toList }

/-- Witness for C8 at a concrete idle state. -/
theorem handle_document_not_waiting_witness :
    handle_document idleState 0 ("attachments/f.pdf".toList) =
      (idleState, DocReply.rejected) :=
  handle_document_not_waiting idleState 0 ("attachments/f.pdf".toList) (by decide)

/-! ## Concrete history for the C3 results: an older ready-marker turn
followed by a newer, non-marker assistant turn -/

/-- History whose *older* assistant turn is a well-formed ready-marker
response and whose *most recent* assistant turn is plain text. -/
def staleReadyMsgs : List Turn :=
  [⟨Role.assistant, "GOTOWE: Raport|Tresc raportu|za 2 godziny".toList⟩,
   ⟨Role.assistant, "ok".toList⟩]

/-- A user who is waiting for an attachment with `staleReadyMsgs` as
history. -/
def staleReadyState : BotState :=
  { planning := true, msgs := staleReadyMsgs, jobs := [],
    targetEmail := "a@b.c".toList }

/-- Claim C3 (amended): with the flag set, the correlator inspects *only* the
most recent assistant turn: if that turn starts with the ready marker it is
re-parsed and scheduling is finalized with the saved path attached; if it
does not, the file is merely acknowledged — even when an older assistant turn
matches the grammar; and a marker turn that parses to no action produces the
handler's error reply (`TypeError` caught by its `except`). -/
theorem handle_document_latest_only (st : BotState) (now : Int) (att m : List Char)
    (hw : st.planning = true) (hm : lastAssistant st.msgs = some m) :
    (gotoweTok.isPrefixOf m = false →
      handle_document st now att = (st, DocReply.acknowledged)) ∧
    (∀ s b t, gotoweTok.isPrefixOf m = true →
      parse_ai_response m = some (AIAction.scheduleEmail s b t) →
      handle_document st now att =
        ((schedule_email_from_ai st now ⟨s, b, t⟩ (some att)).1,
          DocReply.finalized (schedule_email_from_ai st now ⟨s, b, t⟩ (some att)).2)) ∧
    (gotoweTok.isPrefixOf m = true → parse_ai_response m = none →
      handle_document st now att = (st, DocReply.errorReply)) := by
  refine ⟨?_, ?_, ?_⟩
  · intro hp
    simp [handle_document, hw, hm, hp]
  · intro s b t hp hparse
    simp [handle_document, hw, hm, hp, hparse]
  · intro hp hparse
    simp [handle_document, hw, hm, hp, hparse]

/-- Witness for the amended C3: on `staleReadyState` the most recent
assistant turn is `"ok"`, so the file is only acknowledged. -/
theorem handle_document_latest_only_witness :
    handle_document staleReadyState 5 ("attachments/plik2.pdf".toList) =
      (staleReadyState, DocReply.acknowledged) :=
  (handle_document_latest_only staleReadyState 5 ("attachments/plik2.pdf".toList)
    ("ok".toList) (by decide) (by decide)).1 (by decide)

/-- Counterexample to claim C3 as stated: the history contains an older
assistant turn matching the ready-marker grammar (it parses to
`schedule_email`), yet `handle_document` does not scan back to it — it sees
only the later `"ok"` turn and acknowledges the file without finalizing any
job, leaving the state unchanged. -/
theorem handle_document_misses_older_ready :
    (Turn.mk Role.assistant ("GOTOWE: Raport|Tresc raportu|za 2 godziny".toList) ∈
        staleReadyState.msgs) ∧
    parse_ai_response ("GOTOWE: Raport|Tresc raportu|za 2 godziny".toList) =
      some (AIAction.scheduleEmail ("Raport".toList) ("Tresc raportu".toList)
        ("za 2 godziny".toList)) ∧
    handle_document staleReadyState 0 ("attachments/plik.pdf".toList) =
      (staleReadyState, DocReply.acknowledged) := by
  decide

/-- Claim C9 (amended): provided the configured cap is at least 1, every
append through `add_to_memory` leaves the history within the cap, discarding
oldest turns first (the result is a suffix of the appended history and still
contains the new turn); and `analyze_message_with_ai` appends the user
message *before* building the request context, which it builds from the
updated memory. -/
theorem add_to_memory_capped (maxH : Nat) (msgs : List Turn) (hN : 1 ≤ maxH) :
    (∀ role content,
      (add_to_memory maxH msgs role content).length ≤ maxH ∧
      List.IsSuffix (add_to_memory maxH msgs role content) (msgs ++ [⟨role, content⟩]) ∧
      (⟨role, content⟩ : Turn) ∈ add_to_memory maxH msgs role content) ∧
    (∀ userEmail u, pyStrip u ≠ [] →
      analyze_prepare maxH userEmail u msgs =
        some (add_to_memory maxH msgs Role.user u,
          (get_conversation_context userEmail
            (add_to_memory maxH msgs Role.user u)).filter
              (fun t => !t.content.isEmpty))) := by
  constructor
  · intro role content
    unfold add_to_memory
    by_cases hc : maxH < (msgs ++ [(⟨role, content⟩ : Turn)]).length
    · rw [if_pos hc]
      unfold pySliceLast
      rw [if_neg (by omega)]
      have hlen := List.length_append msgs [(⟨role, content⟩ : Turn)]
      refine ⟨?_, List.drop_suffix _ _, ?_⟩
      · rw [List.length_drop]
        omega
      · rw [List.drop_append_of_le_length (by simp at hlen ⊢; omega)]
        simp
    · rw [if_neg hc]
      simp at hc
      refine ⟨by simp; omega, List.suffix_refl _, by simp⟩
  · intro userEmail u hu
    have hneg : ¬(u = [] ∨ pyStrip u = []) := by
      rintro (rfl | h2)
      · exact hu rfl
      · exact hu h2
    unfold analyze_prepare
    rw [if_neg hneg]

/-- Witness for the amended C9 with cap 1: the pruned history keeps only the
new turn. -/
theorem add_to_memory_capped_witness :
    (add_to_memory 1 [] Role.user ("hej".toList)).length ≤ 1 ∧
    List.IsSuffix (add_to_memory 1 [] Role.user ("hej".toList))
      ([] ++ [⟨Role.user, "hej".toList⟩]) ∧
    (⟨Role.user, "hej".toList⟩ : Turn) ∈ add_to_memory 1 [] Role.user ("hej".toList) :=
  (add_to_memory_capped 1 [] (by decide)).1 Role.user ("hej".toList)

/-- Counterexample to claim C9 as stated: with the configured maximum 0
(`MAX_CONVERSATION_HISTORY=0`), the pruning slice `messages[-0:]` is
`messages[0:]` — the whole list — so after an append the history has length
1, exceeding the configured cap. -/
theorem add_to_memory_cap_zero_overflow :
    ¬((add_to_memory 0 [] Role.user ("czesc".toList)).length ≤ 0) := by decide

/-- Claim C10: when the resolved send instant is not strictly in the future,
`schedule_email_datetime` registers no job and returns normally, and the
caller `schedule_email_from_ai` is not signalled: its state keeps the job
store unchanged and its reply is still the success message. -/
theorem schedule_past_noop_success (now sendDt : Int)
    (toEmail subject body : List Char) (atts : List (List Char))
    (jobs : List SchedJob) (st : BotState) (data : EmailData)
    (attachment : Option (List Char))
    (h1 : sendDt ≤ now) (h2 : parse_send_time data.sendTime now ≤ now) :
    schedule_email_datetime now toEmail subject body sendDt atts jobs = jobs ∧
    (schedule_email_from_ai st now data attachment).1.jobs = st.jobs ∧
    (schedule_email_from_ai st now data attachment).2 =
      AiReply.success data.subject st.targetEmail
        (parse_send_time data.sendTime now) := by
  refine ⟨?_, ?_, rfl⟩
  · unfold schedule_email_datetime
    rw [if_pos h1]
  · show schedule_email_datetime now st.targetEmail data.subject data.body
      (parse_send_time data.sendTime now) _ st.jobs = st.jobs
    unfold schedule_email_datetime
    rw [if_pos h2]

/-- The `{subject, body, send_time}` of a plan whose resolved instant lies in
the past. -/
def pastDemoData : EmailData :=
  { subject := "Temat".toList, body := "Tresc".toList,
    sendTime := "01.01.2020 10:00".toList }

/-- Witness for C10: at `now` = 2024-01-01 12:00 the plan `pastDemoData`
resolves to 2020, no job is registered, and the reply is still success. -/
theorem schedule_past_noop_success_witness :
    schedule_email_datetime (dtSeconds 2024 1 1 12 0) ("a@b.c".toList) ("s".toList)
        ("b".toList) 0 [] [] = [] ∧
    (schedule_email_from_ai idleState (dtSeconds 2024 1 1 12 0) pastDemoData none).1.jobs =
      idleState.jobs ∧
    (schedule_email_from_ai idleState (dtSeconds 2024 1 1 12 0) pastDemoData none).2 =
      AiReply.success pastDemoData.subject idleState.targetEmail
        (parse_send_time pastDemoData.sendTime (dtSeconds 2024 1 1 12 0)) :=
  schedule_past_noop_success (dtSeconds 2024 1 1 12 0) 0 ("a@b.c".toList) ("s".toList)
    ("b".toList) [] [] idleState pastDemoData none (by decide) (by decide)

end EmailBot
